import Mathlib

/-!
Verification of the ClassiCube platform window backends
(`src/Window_Haiku.cpp`: a Haiku toolkit backend and a terminal backend).

The development shallowly embeds the event queue, the native event
translators, the event pump and the terminal protocol codec as executable
Lean functions, and proves the specified properties about them.
Machine `int`s are modelled as `Int` (or `Nat` for bitmasks and key codes,
which are non-negative throughout the source); the out-parameter style of
the C functions becomes explicit state passing.
-/

/-! ### Event records (enum CCEventType / struct CCEvent) -/

/-- `CC_NONE` in `enum CCEventType`. -/
def CC_NONE : Nat := 0
def CC_MOUSE_SCROLL : Nat := 1
def CC_MOUSE_DOWN : Nat := 2
def CC_MOUSE_UP : Nat := 3
def CC_MOUSE_MOVE : Nat := 4
def CC_KEY_DOWN : Nat := 5
def CC_KEY_UP : Nat := 6
def CC_KEY_INPUT : Nat := 7
def CC_WIN_RESIZED : Nat := 8
def CC_WIN_FOCUS : Nat := 9
def CC_WIN_REDRAW : Nat := 10
def CC_WIN_QUIT : Nat := 11

/-- `struct CCEvent { int type; CCEventValue v1, v2; }`.  The payload union
`CCEventValue` is modelled as `Int` (the float payload of scroll events is
carried as its integral model; no claim inspects it). -/
structure CCEvent where
  type : Nat
  v1 : Int := 0
  v2 : Int := 0
deriving DecidableEq, Repr

/-! ### The mutex-protected event queue (Events_Init / Events_Push / Events_Pull)

The queue state is the live prefix `events_list[0 .. events_count)` of the
backing array, together with `events_capacity`.  The mutex serialises the
operations; each operation is modelled as an atomic state transformer. -/

def EVENTS_DEFAULT_MAX : Nat := 20

structure EventsState where
  events_list : List CCEvent
  events_capacity : Nat
deriving DecidableEq, Repr

/-- Modelled from the spec: `Utils_Resize` (defined in `Utils.c`, which is not
under `src/`) grows the backing storage by a fixed increment of
`expandElems` elements, copying (hence preserving) the existing elements:
"if at capacity, grows storage (capacity*1 + fixed increment semantics:
doubling not required, linear growth acceptable) before appending; never
drops events".  Element preservation is implicit in the list-of-live-elements
representation; only the capacity change needs modelling. -/
def Utils_Resize (capacity expandElems : Nat) : Nat :=
  capacity + expandElems

def Events_Init : EventsState :=
  { events_list := [], events_capacity := EVENTS_DEFAULT_MAX }

/-- `Events_Push`: under the mutex, grow if `events_count >= events_capacity`,
then append at the tail (`events_list[events_count++] = *event`). -/
def Events_Push (s : EventsState) (event : CCEvent) : EventsState :=
  let s :=
    if s.events_list.length ≥ s.events_capacity then
      { s with events_capacity := Utils_Resize s.events_capacity 20 }
    else s
  { s with events_list := s.events_list ++ [event] }

/-- `Events_Pull`: under the mutex, if non-empty copy out `events_list[0]`,
shift every later element down one slot and decrement the count; returns
whether an event was found (`none` models `found = false`). -/
def Events_Pull (s : EventsState) : Option CCEvent × EventsState :=
  match s.events_list with
  | [] => (none, s)
  | e :: rest => (some e, { s with events_list := rest })

/-! ### Driver for interleaved queue operations -/

/-- A single-producer interaction with the queue: a push of a record or a
pull attempt. -/
inductive QOp where
  | push (e : CCEvent)
  | pull
deriving DecidableEq, Repr

/-- Run a sequence of queue operations, collecting the records returned by
the successful pulls, in order. -/
def runOps : EventsState → List QOp → EventsState × List CCEvent
  | s, [] => (s, [])
  | s, QOp.push e :: rest => runOps (Events_Push s e) rest
  | s, QOp.pull :: rest =>
    let p := Events_Pull s
    let r := runOps p.2 rest
    (r.1, p.1.toList ++ r.2)

/-- The records pushed by an operation sequence, in push order. -/
def pushedOf : List QOp → List CCEvent
  | [] => []
  | QOp.push e :: rest => e :: pushedOf rest
  | QOp.pull :: rest => pushedOf rest

/-- Push a whole list of records, in order. -/
def pushAll (s : EventsState) (es : List CCEvent) : EventsState :=
  es.foldl Events_Push s

/-- Pull repeatedly (at most `fuel` times), stopping when `Events_Pull`
reports the queue empty, collecting the pulled records. -/
def pullAllFuel : Nat → EventsState → List CCEvent
  | 0, _ => []
  | fuel + 1, s =>
    match Events_Pull s with
    | (none, _) => []
    | (some e, s') => e :: pullAllFuel fuel s'

/-- Pull until `Events_Pull` returns false (`events_count` pulls always
suffice, as each successful pull strictly shortens the queue). -/
def pullAll (s : EventsState) : List CCEvent :=
  pullAllFuel s.events_list.length s

/-! ### Queue lemmas -/

theorem Events_Push_list (s : EventsState) (e : CCEvent) :
    (Events_Push s e).events_list = s.events_list ++ [e] := by
  unfold Events_Push
  by_cases h : s.events_list.length ≥ s.events_capacity <;> simp [h]

theorem pushAll_list (es : List CCEvent) (s : EventsState) :
    (pushAll s es).events_list = s.events_list ++ es := by
  induction es generalizing s with
  | nil => simp [pushAll]
  | cons e rest ih =>
    simp only [pushAll, List.foldl_cons]
    rw [show List.foldl Events_Push (Events_Push s e) rest
          = pushAll (Events_Push s e) rest from rfl]
    rw [ih, Events_Push_list]
    simp

theorem pullAllFuel_eq (fuel : Nat) (s : EventsState)
    (h : s.events_list.length ≤ fuel) : pullAllFuel fuel s = s.events_list := by
  induction fuel generalizing s with
  | zero =>
    have : s.events_list = [] := List.length_eq_zero.mp (Nat.le_zero.mp h)
    simp [pullAllFuel, this]
  | succ n ih =>
    match hs : s.events_list with
    | [] => simp [pullAllFuel, Events_Pull, hs]
    | e :: rest =>
      have hlen : rest.length ≤ n := by
        have := h
        rw [hs] at this
        simpa using Nat.lt_succ_iff.mp (Nat.lt_of_lt_of_le (Nat.lt_succ_self _) this)
      simp [pullAllFuel, Events_Pull, hs,
        ih { s with events_list := rest } hlen]

theorem pullAll_eq (s : EventsState) : pullAll s = s.events_list :=
  pullAllFuel_eq _ s (Nat.le_refl _)

theorem runOps_append (ops : List QOp) (s : EventsState) :
    (runOps s ops).2 ++ (runOps s ops).1.events_list
      = s.events_list ++ pushedOf ops := by
  induction ops generalizing s with
  | nil => simp [runOps, pushedOf]
  | cons op rest ih =>
    cases op with
    | push e =>
      simp only [runOps, pushedOf]
      rw [ih, Events_Push_list]
      simp
    | pull =>
      match hs : s.events_list with
      | [] =>
        simp [runOps, Events_Pull, hs, pushedOf, ih]
      | e :: tail =>
        simp only [runOps, Events_Pull, hs, pushedOf, Option.toList]
        rw [List.append_assoc]
        rw [ih { s with events_list := tail }]
        simp

/-- Capacity invariant: a push performed with `events_count ≤ events_capacity`
re-establishes `events_count ≤ events_capacity`, because growth (by 20)
happens before the append. -/
theorem Events_Push_capacity (s : EventsState) (e : CCEvent)
    (h : s.events_list.length ≤ s.events_capacity) :
    (Events_Push s e).events_list.length ≤ (Events_Push s e).events_capacity := by
  unfold Events_Push
  by_cases hc : s.events_list.length ≥ s.events_capacity
  · simp only [hc, if_pos]
    simp [Utils_Resize]
    omega
  · simp only [hc, if_neg, not_false_iff]
    simp
    omega

theorem pushAll_capacity (es : List CCEvent) (s : EventsState)
    (h : s.events_list.length ≤ s.events_capacity) :
    (pushAll s es).events_list.length ≤ (pushAll s es).events_capacity := by
  induction es generalizing s with
  | nil => simpa [pushAll] using h
  | cons e rest ih =>
    simp only [pushAll, List.foldl_cons]
    exact ih (Events_Push s e) (Events_Push_capacity s e h)

/-! ### Claim theorems: queue -/

/-- C1: with a single producer, the records returned by successive successful
`Events_Pull` calls are exactly the pushed records in push order — for any
interleaving, the pulled sequence followed by the records still queued equals
the push sequence (strict FIFO: push appends at the tail, pull removes the
head) — and `Events_Pull` returns false exactly when the queue is empty. -/
theorem events_queue_fifo :
    (∀ ops : List QOp,
      (runOps Events_Init ops).2 ++ (runOps Events_Init ops).1.events_list
        = pushedOf ops)
    ∧ (∀ s : EventsState, (Events_Pull s).1 = none ↔ s.events_list = []) := by
  constructor
  · intro ops
    have := runOps_append ops Events_Init
    simpa [Events_Init] using this
  · intro s
    match hs : s.events_list with
    | [] => simp [Events_Pull, hs]
    | e :: rest => simp [Events_Pull, hs]

/-- C2: pushing any `N > EVENTS_DEFAULT_MAX = 20` records and then pulling
until `Events_Pull` returns false yields exactly the pushed records in push
order, none dropped or altered, and after every push the element count is
within capacity (growth happens before the append, so a push at capacity
never overwrites or loses an element). -/
theorem events_queue_no_loss_under_growth (es : List CCEvent)
    (h : es.length > EVENTS_DEFAULT_MAX) :
    pullAll (pushAll Events_Init es) = es
    ∧ (pushAll Events_Init es).events_list.length
        ≤ (pushAll Events_Init es).events_capacity := by
  constructor
  · rw [pullAll_eq, pushAll_list]
    simp [Events_Init]
  · exact pushAll_capacity es Events_Init (by simp [Events_Init, EVENTS_DEFAULT_MAX])

/-- Witness for C2 at a concrete list of 21 records (capacity is 20, so at
least one growth reallocation occurs). -/
theorem events_queue_no_loss_under_growth_witness :
    ((List.range 21).map (fun i => { type := CC_KEY_DOWN, v1 := (i : Int) : CCEvent })).length
        > EVENTS_DEFAULT_MAX
    ∧ pullAll (pushAll Events_Init
        ((List.range 21).map (fun i => { type := CC_KEY_DOWN, v1 := (i : Int) : CCEvent })))
      = (List.range 21).map (fun i => { type := CC_KEY_DOWN, v1 := (i : Int) : CCEvent }) := by
  refine ⟨by decide, ?_⟩
  exact (events_queue_no_loss_under_growth _ (by decide)).1

/-! ### Haiku mouse button bitmasks and canonical key codes

`B_PRIMARY_MOUSE_BUTTON` etc. are the Haiku OS `InterfaceDefs.h` button
bitmask constants (external OS header). -/

def B_PRIMARY_MOUSE_BUTTON : Nat := 1
def B_SECONDARY_MOUSE_BUTTON : Nat := 2
def B_TERTIARY_MOUSE_BUTTON : Nat := 4

/-- Modelled from the spec: the canonical key identifier vocabulary
(`KEY_*` of the input header, which is not under `src/`).  The claims only
depend on the identifiers being distinct and non-zero (0 is the "no key"
value used by `key_map` and `MapNativeKey`); letter and digit keys are their
ASCII codes as in the source's character literals.  The named non-character
keys are assigned distinct codes from 128 upward. -/
def KEY_NONE : Nat := 0
def KEY_ESCAPE : Nat := 128
def KEY_F1 : Nat := 129
def KEY_F2 : Nat := 130
def KEY_F3 : Nat := 131
def KEY_F4 : Nat := 132
def KEY_F5 : Nat := 133
def KEY_F6 : Nat := 134
def KEY_F7 : Nat := 135
def KEY_F8 : Nat := 136
def KEY_F9 : Nat := 137
def KEY_F10 : Nat := 138
def KEY_F11 : Nat := 139
def KEY_F12 : Nat := 140
def KEY_PRINTSCREEN : Nat := 141
def KEY_SCROLLLOCK : Nat := 142
def KEY_PAUSE : Nat := 143
def KEY_TILDE : Nat := 144
def KEY_MINUS : Nat := 145
def KEY_EQUALS : Nat := 146
def KEY_BACKSPACE : Nat := 147
def KEY_INSERT : Nat := 148
def KEY_HOME : Nat := 149
def KEY_PAGEUP : Nat := 150
def KEY_NUMLOCK : Nat := 151
def KEY_KP_DIVIDE : Nat := 152
def KEY_KP_MULTIPLY : Nat := 153
def KEY_KP_MINUS : Nat := 154
def KEY_TAB : Nat := 155
def KEY_LBRACKET : Nat := 156
def KEY_RBRACKET : Nat := 157
def KEY_BACKSLASH : Nat := 158
def KEY_DELETE : Nat := 159
def KEY_END : Nat := 160
def KEY_PAGEDOWN : Nat := 161
def KEY_KP7 : Nat := 162
def KEY_KP8 : Nat := 163
def KEY_KP9 : Nat := 164
def KEY_KP_PLUS : Nat := 165
def KEY_CAPSLOCK : Nat := 166
def KEY_SEMICOLON : Nat := 167
def KEY_QUOTE : Nat := 168
def KEY_ENTER : Nat := 169
def KEY_KP4 : Nat := 170
def KEY_KP5 : Nat := 171
def KEY_KP6 : Nat := 172
def KEY_LSHIFT : Nat := 173
def KEY_COMMA : Nat := 174
def KEY_PERIOD : Nat := 175
def KEY_SLASH : Nat := 176
def KEY_RSHIFT : Nat := 177
def KEY_UP : Nat := 178
def KEY_KP1 : Nat := 179
def KEY_KP2 : Nat := 180
def KEY_KP3 : Nat := 181
def KEY_KP_ENTER : Nat := 182
def KEY_LCTRL : Nat := 183
def KEY_LALT : Nat := 184
def KEY_SPACE : Nat := 185
def KEY_RALT : Nat := 186
def KEY_RCTRL : Nat := 187
def KEY_LEFT : Nat := 188
def KEY_DOWN : Nat := 189
def KEY_RIGHT : Nat := 190
def KEY_KP0 : Nat := 191
def KEY_KP_DECIMAL : Nat := 192
def KEY_LWIN : Nat := 193
def KEY_RWIN : Nat := 194
def KEY_LMOUSE : Nat := 195
def KEY_RMOUSE : Nat := 196
def KEY_MMOUSE : Nat := 197

/-! ### Mouse button edge synthesis (UpdateMouseButton / UpdateMouseButtons) -/

/-- `UpdateMouseButton(int btn, int pressed)`: pushes a single mouse edge
record; `pressed` is the (possibly non-boolean) masked bit value, tested for
truthiness. -/
def UpdateMouseButton (btn pressed : Nat) : CCEvent :=
  { type := if pressed ≠ 0 then CC_MOUSE_DOWN else CC_MOUSE_UP, v1 := (btn : Int) }

/-- `UpdateMouseButtons(int buttons)`: diffs the new bitmask against the
shadow state `last_buttons`, synthesising one edge record per changed bit
(primary, then secondary, then tertiary), and updates the shadow state.
Returns the records pushed, in push order, with the new shadow state. -/
def UpdateMouseButtons (last_buttons buttons : Nat) : List CCEvent × Nat :=
  let changed := buttons ^^^ last_buttons
  let evs :=
    (if changed &&& B_PRIMARY_MOUSE_BUTTON ≠ 0 then
      [UpdateMouseButton KEY_LMOUSE (buttons &&& B_PRIMARY_MOUSE_BUTTON)] else [])
    ++ (if changed &&& B_SECONDARY_MOUSE_BUTTON ≠ 0 then
      [UpdateMouseButton KEY_RMOUSE (buttons &&& B_SECONDARY_MOUSE_BUTTON)] else [])
    ++ (if changed &&& B_TERTIARY_MOUSE_BUTTON ≠ 0 then
      [UpdateMouseButton KEY_MMOUSE (buttons &&& B_TERTIARY_MOUSE_BUTTON)] else [])
  (evs, buttons)

/-- Feed a sequence of absolute button bitmask notifications through
`UpdateMouseButtons`, starting from shadow state `last0`, collecting every
synthesized edge record in order. -/
def runMouseButtons (last0 : Nat) : List Nat → List CCEvent
  | [] => []
  | b :: rest =>
    let p := UpdateMouseButtons last0 b
    p.1 ++ runMouseButtons p.2 rest

/-! ### Claim theorem: button diffing -/

/-- C3: feeding the bitmask sequence [0, PRIMARY, PRIMARY|SECONDARY,
SECONDARY, 0] to `UpdateMouseButtons` from shadow state 0 synthesizes
exactly MouseDown(Left), MouseDown(Right), MouseUp(Left), MouseUp(Right),
in that order; and an unchanged bitmask (repeating the shadow state)
emits nothing. -/
theorem mouse_button_diff_correct :
    runMouseButtons 0
        [0, B_PRIMARY_MOUSE_BUTTON,
         B_PRIMARY_MOUSE_BUTTON ||| B_SECONDARY_MOUSE_BUTTON,
         B_SECONDARY_MOUSE_BUTTON, 0]
      = [{ type := CC_MOUSE_DOWN, v1 := (KEY_LMOUSE : Int) },
         { type := CC_MOUSE_DOWN, v1 := (KEY_RMOUSE : Int) },
         { type := CC_MOUSE_UP, v1 := (KEY_LMOUSE : Int) },
         { type := CC_MOUSE_UP, v1 := (KEY_RMOUSE : Int) }]
    ∧ ∀ last : Nat, (UpdateMouseButtons last last).1 = [] := by
  constructor
  · decide
  · intro last
    simp [UpdateMouseButtons, Nat.xor_self]

/-! ### Native key lookup table and pump (key_map / MapNativeKey / Window_ProcessEvents)

`key_map` mirrors the 0x70-entry table in the source; `0` entries mark raw
codes with no canonical key. -/

def key_map : List Nat :=
  [ /- 0x00 -/ 0, KEY_ESCAPE, KEY_F1, KEY_F2, KEY_F3, KEY_F4, KEY_F5, KEY_F6,
   /- 0x08 -/ KEY_F7, KEY_F8, KEY_F9, KEY_F10, KEY_F11, KEY_F12, KEY_PRINTSCREEN, KEY_SCROLLLOCK,
   /- 0x10 -/ KEY_PAUSE, KEY_TILDE, 49, 50, 51, 52, 53, 54,
   /- 0x18 -/ 55, 56, 57, 48, KEY_MINUS, KEY_EQUALS, KEY_BACKSPACE, KEY_INSERT,
   /- 0x20 -/ KEY_HOME, KEY_PAGEUP, KEY_NUMLOCK, KEY_KP_DIVIDE, KEY_KP_MULTIPLY, KEY_KP_MINUS, KEY_TAB, 81,
   /- 0x28 -/ 87, 69, 82, 84, 89, 85, 73, 79,
   /- 0x30 -/ 80, KEY_LBRACKET, KEY_RBRACKET, KEY_BACKSLASH, KEY_DELETE, KEY_END, KEY_PAGEDOWN, KEY_KP7,
   /- 0x38 -/ KEY_KP8, KEY_KP9, KEY_KP_PLUS, KEY_CAPSLOCK, 65, 83, 68, 70,
   /- 0x40 -/ 71, 72, 74, 75, 76, KEY_SEMICOLON, KEY_QUOTE, KEY_ENTER,
   /- 0x48 -/ KEY_KP4, KEY_KP5, KEY_KP6, KEY_LSHIFT, 90, 88, 67, 86,
   /- 0x50 -/ 66, 78, 77, KEY_COMMA, KEY_PERIOD, KEY_SLASH, KEY_RSHIFT, KEY_UP,
   /- 0x58 -/ KEY_KP1, KEY_KP2, KEY_KP3, KEY_KP_ENTER, KEY_LCTRL, KEY_LALT, KEY_SPACE, KEY_RALT,
   /- 0x60 -/ KEY_RCTRL, KEY_LEFT, KEY_DOWN, KEY_RIGHT, KEY_KP0, KEY_KP_DECIMAL, KEY_LWIN, 0,
   /- 0x68 -/ KEY_RWIN, 0, 0, 0, 0, 0, 0, 0]

/-- The calls the event pump makes into the application layer, in order.
`logUnknownKey` models the `Platform_Log2("Unknown key: ...")` call. -/
inductive PumpCall where
  | mouseScrollWheel (delta : Int)
  | inputSetPressed (key : Nat)
  | inputSetReleased (key : Nat)
  | pointerSetPosition (idx : Nat) (x y : Int)
  | raiseInputPress (cp : Int)
  | raiseResized (width height : Int)
  | raiseFocusChanged (focused : Int)
  | raiseRedrawNeeded
  | raiseClosing
  | logUnknownKey (raw : Int)
deriving DecidableEq, Repr

/-- The bounds-checked lookup in `MapNativeKey`:
`raw >= 0 && raw < Array_Elems(key_map) ? key_map[raw] : 0`. -/
def MapNativeKey_key (raw : Int) : Nat :=
  if 0 ≤ raw ∧ raw < (key_map.length : Int) then key_map.getD raw.toNat 0 else 0

/-- `MapNativeKey(int raw)`: bounds-checked table lookup; a raw code out of
range of the table maps to 0, and a 0 result is logged.  Returns the mapped
key together with the log call performed (empty when the key mapped). -/
def MapNativeKey (raw : Int) : Nat × List PumpCall :=
  (MapNativeKey_key raw,
   if MapNativeKey_key raw = 0 then [PumpCall.logUnknownKey raw] else [])

/-- The body of the `Window_ProcessEvents` drain loop for one pulled record:
the calls made into the application layer for that record.  (The
`CC_WIN_RESIZED` / `CC_WIN_FOCUS` / `CC_WIN_QUIT` cases also update the
process-wide `WindowInfo` fields before raising; the raised notification
carries the written values.) -/
def ProcessEvent (e : CCEvent) : List PumpCall :=
  if e.type = CC_MOUSE_SCROLL then [PumpCall.mouseScrollWheel e.v1]
  else if e.type = CC_MOUSE_DOWN then [PumpCall.inputSetPressed e.v1.toNat]
  else if e.type = CC_MOUSE_UP then [PumpCall.inputSetReleased e.v1.toNat]
  else if e.type = CC_MOUSE_MOVE then [PumpCall.pointerSetPosition 0 e.v1 e.v2]
  else if e.type = CC_KEY_DOWN then
    let p := MapNativeKey e.v1
    p.2 ++ (if p.1 ≠ 0 then [PumpCall.inputSetPressed p.1] else [])
  else if e.type = CC_KEY_UP then
    let p := MapNativeKey e.v1
    p.2 ++ (if p.1 ≠ 0 then [PumpCall.inputSetReleased p.1] else [])
  else if e.type = CC_KEY_INPUT then [PumpCall.raiseInputPress e.v1]
  else if e.type = CC_WIN_RESIZED then [PumpCall.raiseResized e.v1 e.v2]
  else if e.type = CC_WIN_FOCUS then [PumpCall.raiseFocusChanged e.v1]
  else if e.type = CC_WIN_REDRAW then [PumpCall.raiseRedrawNeeded]
  else if e.type = CC_WIN_QUIT then [PumpCall.raiseClosing]
  else []

/-- `Window_ProcessEvents` (Haiku): drains the queue completely
(`while (Events_Pull(&event))`), dispatching each pulled record in FIFO
order; by `pullAll_eq` the drained records are exactly the queued list. -/
def Window_ProcessEvents (s : EventsState) : List PumpCall :=
  (pullAll s).flatMap ProcessEvent

/-! ### Claim theorem: unknown key handling -/

/-- C8: a raw native key code that is out of range of `key_map` or maps to
no canonical key is logged and dropped: dispatching its record produces
exactly the log call — no press or release — and draining a queue whose head
is such a record continues with the remaining records unaffected. -/
theorem unknown_key_logged_and_dropped (raw : Int)
    (h : ¬(0 ≤ raw ∧ raw < (key_map.length : Int)) ∨ key_map.getD raw.toNat 0 = 0) :
    ProcessEvent { type := CC_KEY_DOWN, v1 := raw }
        = [PumpCall.logUnknownKey raw]
    ∧ ProcessEvent { type := CC_KEY_UP, v1 := raw }
        = [PumpCall.logUnknownKey raw]
    ∧ ∀ rest : List CCEvent, ∀ cap : Nat,
        Window_ProcessEvents
            { events_list := { type := CC_KEY_DOWN, v1 := raw } :: rest,
              events_capacity := cap }
          = PumpCall.logUnknownKey raw
              :: Window_ProcessEvents { events_list := rest, events_capacity := cap } := by
  have hkey : MapNativeKey_key raw = 0 := by
    unfold MapNativeKey_key
    rcases h with h | h
    · rw [if_neg h]
    · by_cases hr : 0 ≤ raw ∧ raw < (key_map.length : Int)
      · rw [if_pos hr]; exact h
      · rw [if_neg hr]
  have hkey1 : (MapNativeKey raw).1 = 0 := by simp [MapNativeKey, hkey]
  have hlog : (MapNativeKey raw).2 = [PumpCall.logUnknownKey raw] := by
    simp [MapNativeKey, hkey]
  have hdown : ProcessEvent { type := CC_KEY_DOWN, v1 := raw }
      = [PumpCall.logUnknownKey raw] := by
    simp [ProcessEvent, CC_MOUSE_SCROLL, CC_MOUSE_DOWN, CC_MOUSE_UP, CC_MOUSE_MOVE,
      CC_KEY_DOWN, hkey1, hlog]
  refine ⟨hdown, ?_, ?_⟩
  · simp [ProcessEvent, CC_MOUSE_SCROLL, CC_MOUSE_DOWN, CC_MOUSE_UP, CC_MOUSE_MOVE,
      CC_KEY_DOWN, CC_KEY_UP, hkey1, hlog]
  · intro rest cap
    simp [Window_ProcessEvents, pullAll_eq, hdown]

/-- Witness for C8 at raw code 0x69 (an in-range table slot holding 0) —
and the drain of a queue also holding a mapped Escape key record behind it
presses Escape after the log. -/
theorem unknown_key_logged_and_dropped_witness :
    (¬((0 : Int) ≤ 0x69 ∧ (0x69 : Int) < (key_map.length : Int))
        ∨ key_map.getD (0x69 : Int).toNat 0 = 0)
    ∧ ProcessEvent { type := CC_KEY_DOWN, v1 := 0x69 }
        = [PumpCall.logUnknownKey 0x69]
    ∧ Window_ProcessEvents
          { events_list := [{ type := CC_KEY_DOWN, v1 := 0x69 },
                            { type := CC_KEY_DOWN, v1 := 0x01 }],
            events_capacity := 20 }
        = [PumpCall.logUnknownKey 0x69, PumpCall.inputSetPressed KEY_ESCAPE] := by
  have h := unknown_key_logged_and_dropped 0x69 (Or.inr (by decide))
  refine ⟨Or.inr (by decide), h.1, ?_⟩
  rw [h.2.2 [{ type := CC_KEY_DOWN, v1 := 0x01 }] 20]
  decide

/-! ### Native message dispatch (CC_BApp / CC_BWindow DispatchMessage)

A native toolkit message is modelled by its `what` constructor together with
the results of the `Find*` accessor calls the handler performs on it
(`none` models a `Find*` that does not return `B_OK`).  UTF-8 decoding
(`Convert_Utf8ToCodepoint`, defined in `String.c`, not under `src/`) is a
parameter: the dispatch behaviour depends only on its success or failure. -/

inductive AppMessage where
  | quitRequested
  | refsReceived (hasRef : Bool)
  | other
deriving DecidableEq, Repr

inductive WinMessage where
  | keyDown (key : Option Int) (bytes : Option (List Nat))
  | unmappedKeyDown (key : Option Int)
  | keyUp (key : Option Int)
  | unmappedKeyUp (key : Option Int)
  | mouseDown (buttons : Option Nat)
  | mouseUp (buttons : Option Nat)
  | mouseMoved (wx wy : Option Int)
  | mouseWheelChanged (delta : Option Int)
  | windowActivated (active : Option Bool)
  | windowMoved
  | windowResized (width height : Option Int)
  | quitRequested
  | update
  | other
deriving DecidableEq, Repr

/-- `CC_BApp::DispatchMessage`: the records pushed for one application-level
message (quit requests produce a Quit record; received file refs invoke the
open-file callback and push nothing; everything else pushes nothing and
falls through to the base class). -/
def CC_BApp_DispatchMessage : AppMessage → List CCEvent
  | AppMessage.quitRequested => [{ type := CC_WIN_QUIT }]
  | AppMessage.refsReceived _ => []
  | AppMessage.other => []

/-- `ProcessKeyInput`: decodes the message's "bytes" string as UTF-8 and
pushes a `CC_KEY_INPUT` record carrying the codepoint; pushes nothing when
the string is absent or fails to decode. -/
def ProcessKeyInput (decode : List Nat → Option Int) :
    Option (List Nat) → List CCEvent
  | none => []
  | some value =>
    match decode value with
    | none => []
    | some cp => [{ type := CC_KEY_INPUT, v1 := cp }]

/-- The `event` record computed by the `switch` in
`CC_BWindow::DispatchMessage` (type `CC_NONE = 0` when the message is not
translated), paired with the records `UpdateMouseButtons` pushes during the
`switch` and the updated shadow state. -/
def CC_BWindow_switch (last_buttons : Nat) :
    WinMessage → CCEvent × List CCEvent × Nat
  | WinMessage.keyDown (some key) _ =>
    ({ type := CC_KEY_DOWN, v1 := key }, [], last_buttons)
  | WinMessage.unmappedKeyDown (some key) =>
    ({ type := CC_KEY_DOWN, v1 := key }, [], last_buttons)
  | WinMessage.keyUp (some key) =>
    ({ type := CC_KEY_UP, v1 := key }, [], last_buttons)
  | WinMessage.unmappedKeyUp (some key) =>
    ({ type := CC_KEY_UP, v1 := key }, [], last_buttons)
  | WinMessage.mouseDown (some buttons) =>
    ({ type := CC_NONE }, (UpdateMouseButtons last_buttons buttons).1,
     (UpdateMouseButtons last_buttons buttons).2)
  | WinMessage.mouseUp (some buttons) =>
    ({ type := CC_NONE }, (UpdateMouseButtons last_buttons buttons).1,
     (UpdateMouseButtons last_buttons buttons).2)
  | WinMessage.mouseMoved (some wx) (some wy) =>
    ({ type := CC_MOUSE_MOVE, v1 := wx, v2 := wy }, [], last_buttons)
  | WinMessage.mouseWheelChanged (some delta) =>
    ({ type := CC_MOUSE_SCROLL, v1 := -delta }, [], last_buttons)
  | WinMessage.windowActivated (some active) =>
    ({ type := CC_WIN_FOCUS, v1 := if active then 1 else 0 }, [], last_buttons)
  | WinMessage.windowResized (some width) (some height) =>
    ({ type := CC_WIN_RESIZED, v1 := width + 1, v2 := height + 1 }, [], last_buttons)
  | WinMessage.quitRequested =>
    ({ type := CC_WIN_QUIT }, [], last_buttons)
  | WinMessage.update =>
    ({ type := CC_WIN_REDRAW }, [], last_buttons)
  | _ => ({ type := CC_NONE }, [], last_buttons)

/-- `CC_BWindow::DispatchMessage`: all records pushed while handling one
window-level message, in push order — the `switch` body's pushes (mouse
button edges), then the translated `event` when its type is non-zero, then
`ProcessKeyInput`'s push when the message is `B_KEY_DOWN` — together with
the updated button shadow state. -/
def CC_BWindow_DispatchMessage (decode : List Nat → Option Int)
    (last_buttons : Nat) (msg : WinMessage) : List CCEvent × Nat :=
  let s := CC_BWindow_switch last_buttons msg
  let pushed :=
    s.2.1
    ++ (if s.1.type ≠ 0 then [s.1] else [])
    ++ (match msg with
        | WinMessage.keyDown _ bytes => ProcessKeyInput decode bytes
        | _ => [])
  (pushed, s.2.2)

/-! ### Claim theorem: no CC_NONE record queued -/

/-- C9: no record of type `CC_NONE` is ever pushed: every record pushed by
the application dispatcher, the window dispatcher (for any UTF-8 decoder
and any button shadow state) and the synthesizing helpers
(`ProcessKeyInput`, `UpdateMouseButton`) has non-zero type; unrecognized
messages push nothing at all. -/
theorem no_none_event_queued :
    (∀ msg : AppMessage,
      (CC_BApp_DispatchMessage msg).all (fun e => e.type != CC_NONE))
    ∧ (∀ decode : List Nat → Option Int, ∀ last_buttons : Nat,
        ∀ msg : WinMessage,
        ((CC_BWindow_DispatchMessage decode last_buttons msg).1.all
          (fun e => e.type != CC_NONE)))
    ∧ (∀ decode : List Nat → Option Int, ∀ bytes : Option (List Nat),
        (ProcessKeyInput decode bytes).all (fun e => e.type != CC_NONE))
    ∧ (∀ btn pressed : Nat, (UpdateMouseButton btn pressed).type ≠ CC_NONE)
    ∧ CC_BApp_DispatchMessage AppMessage.other = []
    ∧ (∀ decode : List Nat → Option Int, ∀ last_buttons : Nat,
        (CC_BWindow_DispatchMessage decode last_buttons WinMessage.other).1 = []) := by
  have hPKI : ∀ decode : List Nat → Option Int, ∀ bytes : Option (List Nat),
      (ProcessKeyInput decode bytes).all (fun e => e.type != CC_NONE) := by
    intro decode bytes
    match bytes with
    | none => simp [ProcessKeyInput]
    | some value =>
      match hd : decode value with
      | none => simp [ProcessKeyInput, hd]
      | some cp => simp [ProcessKeyInput, hd, CC_KEY_INPUT, CC_NONE]
  have hBtn : ∀ btn pressed : Nat, (UpdateMouseButton btn pressed).type ≠ CC_NONE := by
    intro btn pressed
    by_cases hp : pressed ≠ 0 <;>
      simp [UpdateMouseButton, hp, CC_MOUSE_DOWN, CC_MOUSE_UP, CC_NONE]
  have hButtons : ∀ last buttons : Nat,
      (UpdateMouseButtons last buttons).1.all (fun e => e.type != CC_NONE) := by
    intro last buttons
    unfold UpdateMouseButtons
    simp only [List.all_append, List.all_eq_true, Bool.and_eq_true]
    refine ⟨⟨?_, ?_⟩, ?_⟩ <;>
    · split
      · intro e he
        simp only [List.mem_singleton] at he
        subst he
        simpa using hBtn _ _
      · intro e he
        simp at he
  have hPKI2 : ∀ decode : List Nat → Option Int, ∀ bytes : Option (List Nat),
      ∀ e ∈ ProcessKeyInput decode bytes, ¬e.type = 0 := by
    intro decode bytes
    have := hPKI decode bytes
    simpa [List.all_eq_true, CC_NONE] using this
  refine ⟨?_, ?_, hPKI, hBtn, rfl, ?_⟩
  · intro msg
    cases msg <;> simp [CC_BApp_DispatchMessage, CC_WIN_QUIT, CC_NONE]
  · intro decode last_buttons msg
    cases msg with
    | keyDown k bytes =>
      cases k <;>
        (simp [CC_BWindow_DispatchMessage, CC_BWindow_switch, CC_KEY_DOWN, CC_NONE] <;>
          exact hPKI2 decode bytes)
    | unmappedKeyDown k =>
      cases k <;>
        simp [CC_BWindow_DispatchMessage, CC_BWindow_switch, CC_KEY_DOWN, CC_NONE]
    | keyUp k =>
      cases k <;>
        simp [CC_BWindow_DispatchMessage, CC_BWindow_switch, CC_KEY_UP, CC_NONE]
    | unmappedKeyUp k =>
      cases k <;>
        simp [CC_BWindow_DispatchMessage, CC_BWindow_switch, CC_KEY_UP, CC_NONE]
    | mouseDown b =>
      cases b with
      | none => simp [CC_BWindow_DispatchMessage, CC_BWindow_switch, CC_NONE]
      | some buttons =>
        simpa [CC_BWindow_DispatchMessage, CC_BWindow_switch, CC_NONE]
          using hButtons last_buttons buttons
    | mouseUp b =>
      cases b with
      | none => simp [CC_BWindow_DispatchMessage, CC_BWindow_switch, CC_NONE]
      | some buttons =>
        simpa [CC_BWindow_DispatchMessage, CC_BWindow_switch, CC_NONE]
          using hButtons last_buttons buttons
    | mouseMoved wx wy =>
      cases wx <;> cases wy <;>
        simp [CC_BWindow_DispatchMessage, CC_BWindow_switch, CC_MOUSE_MOVE, CC_NONE]
    | mouseWheelChanged d =>
      cases d <;>
        simp [CC_BWindow_DispatchMessage, CC_BWindow_switch, CC_MOUSE_SCROLL, CC_NONE]
    | windowActivated a =>
      cases a <;>
        simp [CC_BWindow_DispatchMessage, CC_BWindow_switch, CC_WIN_FOCUS, CC_NONE]
    | windowMoved => simp [CC_BWindow_DispatchMessage, CC_BWindow_switch, CC_NONE]
    | windowResized w h =>
      cases w <;> cases h <;>
        simp [CC_BWindow_DispatchMessage, CC_BWindow_switch, CC_WIN_RESIZED, CC_NONE]
    | quitRequested =>
      simp [CC_BWindow_DispatchMessage, CC_BWindow_switch, CC_WIN_QUIT, CC_NONE]
    | update =>
      simp [CC_BWindow_DispatchMessage, CC_BWindow_switch, CC_WIN_REDRAW, CC_NONE]
    | other => simp [CC_BWindow_DispatchMessage, CC_BWindow_switch, CC_NONE]
  · intro decode last_buttons
    simp [CC_BWindow_DispatchMessage, CC_BWindow_switch, CC_NONE]

/-! ### Claim theorem: key-down messages queue KeyDown then KeyInput -/

/-- C10: a `B_KEY_DOWN` message carrying a key code and decodable bytes
queues exactly a `CC_KEY_DOWN` record with the raw native code followed by a
`CC_KEY_INPUT` record with the decoded codepoint; a `B_UNMAPPED_KEY_DOWN`
message queues only the `CC_KEY_DOWN` record (never a `CC_KEY_INPUT`); and a
`B_KEY_DOWN` whose bytes fail to decode queues only the `CC_KEY_DOWN`
record. -/
theorem key_down_queues_keydown_then_keyinput
    (decode : List Nat → Option Int) (last_buttons : Nat) (raw : Int)
    (bytes : List Nat) (cp : Int) (h : decode bytes = some cp) :
    (CC_BWindow_DispatchMessage decode last_buttons
        (WinMessage.keyDown (some raw) (some bytes))).1
      = [{ type := CC_KEY_DOWN, v1 := raw }, { type := CC_KEY_INPUT, v1 := cp }]
    ∧ (CC_BWindow_DispatchMessage decode last_buttons
        (WinMessage.unmappedKeyDown (some raw))).1
      = [{ type := CC_KEY_DOWN, v1 := raw }]
    ∧ (∀ kb : Option Int,
        (CC_BWindow_DispatchMessage decode last_buttons
            (WinMessage.unmappedKeyDown kb)).1.all
          (fun e => e.type != CC_KEY_INPUT))
    ∧ (∀ bytes2 : List Nat, decode bytes2 = none →
        (CC_BWindow_DispatchMessage decode last_buttons
            (WinMessage.keyDown (some raw) (some bytes2))).1
          = [{ type := CC_KEY_DOWN, v1 := raw }]) := by
  refine ⟨?_, ?_, ?_, ?_⟩
  · simp [CC_BWindow_DispatchMessage, CC_BWindow_switch, ProcessKeyInput, h,
      CC_KEY_DOWN]
  · simp [CC_BWindow_DispatchMessage, CC_BWindow_switch, CC_KEY_DOWN]
  · intro kb
    cases kb <;>
      simp [CC_BWindow_DispatchMessage, CC_BWindow_switch, CC_KEY_DOWN, CC_KEY_INPUT,
        CC_NONE]
  · intro bytes2 h2
    simp [CC_BWindow_DispatchMessage, CC_BWindow_switch, ProcessKeyInput, h2,
      CC_KEY_DOWN]

/-- Witness for C10 with a decoder succeeding on one byte string and failing
on another. -/
theorem key_down_queues_keydown_then_keyinput_witness :
    (fun bs : List Nat => if bs = [65] then some (65 : Int) else none) [65]
        = some (65 : Int)
    ∧ (CC_BWindow_DispatchMessage
        (fun bs : List Nat => if bs = [65] then some (65 : Int) else none)
        0 (WinMessage.keyDown (some 40) (some [65]))).1
      = [{ type := CC_KEY_DOWN, v1 := 40 }, { type := CC_KEY_INPUT, v1 := 65 }] := by
  refine ⟨by decide, ?_⟩
  exact (key_down_queues_keydown_then_keyinput
    (fun bs : List Nat => if bs = [65] then some (65 : Int) else none)
    0 40 [65] 65 (by decide)).1

/-! ### Terminal backend (second compilation unit of the source file) -/

namespace Terminal

/-- Modelled from the spec: the canonical key vocabulary used by the
terminal backend (`CCMOUSE_*` / `CCKEY_*`, from the input header, which is
not under `src/`).  Only distinctness and non-zeroness are observable in the
claims. -/
def CCMOUSE_L : Nat := 195
def CCMOUSE_R : Nat := 196
def CCMOUSE_M : Nat := 197
def CCMOUSE_X1 : Nat := 198
def CCMOUSE_X2 : Nat := 199
def CCKEY_SPACE : Nat := 185

/-- The calls the terminal input codec makes into the application layer. -/
inductive TermCall where
  | pointerSetPosition (idx : Nat) (x y : Int)
  | inputSetNonRepeatable (key : Nat) (pressed : Bool)
  | inputSetPressed (key : Nat)
  | inputSetReleased (key : Nat)
deriving DecidableEq, Repr

/-- C `isspace` (libc): space or one of the control characters 0x09–0x0D. -/
def c_isspace (c : Char) : Bool :=
  c.toNat = 32 || (9 ≤ c.toNat && c.toNat ≤ 13)

/-- The digit-accumulation loop of C `atoi` (libc): consume decimal digits
(`'0'` = 48 … `'9'` = 57), stopping at the first non-digit. -/
def atoiDigits : List Char → Nat → Nat
  | [], acc => acc
  | c :: rest, acc =>
    if 48 ≤ c.toNat ∧ c.toNat ≤ 57 then atoiDigits rest (acc * 10 + (c.toNat - 48))
    else acc

/-- C `atoi` (libc): skip leading whitespace, accept an optional sign
(`'-'` = 45, `'+'` = 43), then accumulate decimal digits, ignoring any
trailing non-digit characters. -/
def atoi (s : List Char) : Int :=
  let s1 := s.dropWhile c_isspace
  if (s1.headD ' ').toNat = 45 then -(atoiDigits (s1.drop 1) 0 : Int)
  else if (s1.headD ' ').toNat = 43 then (atoiDigits (s1.drop 1) 0 : Int)
  else (atoiDigits s1 0 : Int)

/-- The successive tokens produced by C `strtok(p, d)` / `strtok(NULL, d)`
(libc): maximal non-empty runs of characters not equal to the delimiter.
`cur` accumulates the characters of the token in progress, in reverse. -/
def strtokTokens (d : Char) : List Char → List Char → List (List Char)
  | [], cur => if cur.isEmpty then [] else [cur.reverse]
  | c :: rest, cur =>
    if c = d then
      if cur.isEmpty then strtokTokens d rest []
      else cur.reverse :: strtokTokens d rest []
    else strtokTokens d rest (c :: cur)

/-- `ProcessMouse(char* buf, int n)`: copies the buffer, tokenizes it from
offset 3 (past `ESC [ <`) on `';'`, and dispatches on the first character of
the first token.  Leading digit `'0'`: a left-button report — position from
the next two tokens (X passed through, Y doubled), pressed iff no `'m'`
occurs anywhere in the buffer (`strchr(buf, 'm') == NULL`).  Leading digit
`'3'`: a motion report — position only.  (A report with fewer than three
tokens passes NULL to `atoi` in C; such malformed reports are modelled as
empty-token reads, which the claims never exercise.) -/
def ProcessMouse (buf : List Char) : List TermCall :=
  let toks := strtokTokens ';' (buf.drop 3) []
  match toks with
  | [] => []
  | tok :: restToks =>
    if tok.headD ' ' = '0' then
      let mouse := !(buf.contains 'm')
      let x := atoi (restToks.getD 0 [])
      let y := atoi (restToks.getD 1 []) * 2
      [TermCall.pointerSetPosition 0 x y,
       TermCall.inputSetNonRepeatable CCMOUSE_L mouse]
    else if tok.headD ' ' = '3' then
      let x := atoi (restToks.getD 0 [])
      let y := atoi (restToks.getD 1 []) * 2
      [TermCall.pointerSetPosition 0 x y]
    else []

/-- `ProcessKey(int key)`: upcase a lowercase letter; press an uppercase
letter; press-then-release space; anything else falls through both branches
and produces nothing. -/
def ProcessKey (key : Nat) : List TermCall :=
  let key := if 97 ≤ key ∧ key ≤ 122 then key - 32 else key
  if 65 ≤ key ∧ key ≤ 90 then
    [TermCall.inputSetPressed key]
  else if key = 32 then
    [TermCall.inputSetPressed CCKEY_SPACE, TermCall.inputSetReleased CCKEY_SPACE]
  else []

/-- The input-dispatch tail of the terminal `Window_ProcessEvents`: a read
buffer starting with `ESC [ <` of length at least 4 goes to `ProcessMouse`;
otherwise a printable first byte (32 ≤ b < 127; bytes ≥ 128 are negative as
C `char` and fail the test just as their code points do here) goes to
`ProcessKey`. -/
def Window_ProcessEvents (buf : List Char) : List TermCall :=
  if buf.length ≥ 4 ∧ buf.getD 0 ' ' = '\x1b' ∧ buf.getD 1 ' ' = '['
      ∧ buf.getD 2 ' ' = '<' then
    ProcessMouse buf
  else if 32 ≤ (buf.getD 0 ' ').toNat ∧ (buf.getD 0 ' ').toNat < 127 then
    ProcessKey (buf.getD 0 ' ').toNat
  else []

/-! ### Terminal half-block renderer -/

structure Rect2D where
  x : Nat
  y : Nat
  width : Nat
  height : Nat
deriving DecidableEq, Repr

/-- One emitted terminal cell: an SGR truecolor background escape (from the
top pixel), an SGR truecolor foreground escape (from the bottom pixel), a
cursor-position escape to `(row, col)`, and the lower half-block glyph. -/
structure TermCell where
  bg : Nat
  fg : Nat
  row : Nat
  col : Nat
deriving DecidableEq, Repr

/-- The pixel rows visited by `for (y = r.y & ~0x01; y < r.y + r.height; y += 2)`:
start at the dirty rectangle's start row rounded down to an even boundary,
step 2 while below the end row. -/
def rowStarts (r : Rect2D) : List Nat :=
  let y0 := r.y - r.y % 2
  (List.range ((r.y + r.height - y0 + 1) / 2)).map (fun k => y0 + 2 * k)

/-- `Window_DrawFramebuffer(Rect2D r, struct Bitmap* bmp)` (terminal): for
each visited row pair and each column of the dirty rectangle, emit one
half-block cell whose background is the top pixel, foreground the bottom
pixel, at terminal row `y / 2`, column `x`.  `bmp` is `Bitmap_GetPixel` as a
function; coordinates and dimensions are non-negative (`Nat`). -/
def Window_DrawFramebuffer (r : Rect2D) (bmp : Nat → Nat → Nat) : List TermCell :=
  (rowStarts r).flatMap (fun yy =>
    (List.range r.width).map (fun i =>
      { bg := bmp (r.x + i) yy, fg := bmp (r.x + i) (yy + 1),
        row := yy / 2, col := r.x + i }))

/-! ### Terminal wire protocol (HookTerminal / UnhookTerminal)

The `DEC_PM_RESET` macro in the source ends in the character `"1"` (the
digit one), not `"l"` (lowercase L): `#define DEC_PM_RESET(cmd) CSI "?" cmd "1"`. -/

def CSI : String := "\x1b["

def ERASE_CMD (cmd : String) : String := CSI ++ cmd ++ "J"

def DEC_PM_SET (cmd : String) : String := CSI ++ "?" ++ cmd ++ "h"

def DEC_PM_RESET (cmd : String) : String := CSI ++ "?" ++ cmd ++ "1"

/-- The bytes `HookTerminal` writes to the terminal, in order. -/
def HookTerminal : String :=
  DEC_PM_SET "1049" ++ (CSI ++ "0m") ++ ERASE_CMD "2"
  ++ DEC_PM_SET "1003" ++ DEC_PM_SET "1015" ++ DEC_PM_SET "1006"
  ++ DEC_PM_RESET "25"

/-- The bytes `UnhookTerminal` writes to the terminal, in order. -/
def UnhookTerminal : String :=
  DEC_PM_RESET "1049" ++ (CSI ++ "0m") ++ ERASE_CMD "2"
  ++ DEC_PM_RESET "1003" ++ DEC_PM_RESET "1015" ++ DEC_PM_RESET "1006"
  ++ DEC_PM_SET "25"

/-- The entry byte sequence the specification prescribes (ANSI DEC private
mode reset ends in lowercase `l`): enable alternate screen, reset SGR,
erase-all, enable mouse modes 1003/1015/1006, hide cursor. -/
def specHookTerminal : String :=
  "\x1b[?1049h" ++ "\x1b[0m" ++ "\x1b[2J"
  ++ "\x1b[?1003h" ++ "\x1b[?1015h" ++ "\x1b[?1006h" ++ "\x1b[?25l"

/-- The exit byte sequence the specification prescribes: disable alternate
screen, reset SGR, erase-all, disable the three mouse modes, show cursor. -/
def specUnhookTerminal : String :=
  "\x1b[?1049l" ++ "\x1b[0m" ++ "\x1b[2J"
  ++ "\x1b[?1003l" ++ "\x1b[?1015l" ++ "\x1b[?1006l" ++ "\x1b[?25h"

end Terminal

/-! ### Claim theorem: terminal wire protocol -/

/-- C7: the entry and exit byte sequences as the code emits them.  The
`DEC_PM_RESET` macro ends in the digit one (`"1"`), not the lowercase L
(`"l"`) that the ANSI DEC private-mode reset requires, so every mode-reset
emission (the entry hide-cursor, and the exit alternate-screen/mouse-mode
disables) differs from the specified sequence: the code writes e.g.
`ESC [ ? 1 0 4 9 1` where the specification requires `ESC [ ? 1 0 4 9 l`. -/
theorem terminal_wire_protocol_divergence :
    Terminal.HookTerminal
      = "\x1b[?1049h\x1b[0m\x1b[2J\x1b[?1003h\x1b[?1015h\x1b[?1006h\x1b[?251"
    ∧ Terminal.UnhookTerminal
      = "\x1b[?10491\x1b[0m\x1b[2J\x1b[?10031\x1b[?10151\x1b[?10061\x1b[?25h"
    ∧ Terminal.HookTerminal ≠ Terminal.specHookTerminal
    ∧ Terminal.UnhookTerminal ≠ Terminal.specUnhookTerminal := by
  refine ⟨rfl, rfl, ?_, ?_⟩ <;> decide

/-! ### Claim theorems: half-block renderer -/

/-- C5 counterexample: a 2×2 pixel dirty rectangle emits two terminal
cells (one per pixel column), not exactly one as claimed. -/
theorem halfblock_two_by_two_emits_two_cells :
    Terminal.Window_DrawFramebuffer { x := 0, y := 0, width := 2, height := 2 }
        (fun x y => 10 * x + y)
      = [{ bg := 0, fg := 1, row := 0, col := 0 },
         { bg := 10, fg := 11, row := 0, col := 1 }]
    ∧ (Terminal.Window_DrawFramebuffer { x := 0, y := 0, width := 2, height := 2 }
        (fun x y => 10 * x + y)).length ≠ 1 := by
  constructor
  · decide
  · decide

/-- Helper: an odd start row renders identically to the rectangle extended
upward to the even boundary (`r.y & ~0x01` rounds the start row down). -/
theorem DrawFramebuffer_odd_row_rounds_down (bmp : Nat → Nat → Nat)
    (x y w hh : Nat) (h : y % 2 = 1) :
    Terminal.Window_DrawFramebuffer { x := x, y := y, width := w, height := hh } bmp
      = Terminal.Window_DrawFramebuffer
          { x := x, y := y - 1, width := w, height := hh + 1 } bmp := by
  have hy0 : y - y % 2 = y - 1 := by omega
  have hy0' : y - 1 - (y - 1) % 2 = y - 1 := by omega
  have hcnt : (y + hh - (y - 1) + 1) / 2
      = ((y - 1) + (hh + 1) - (y - 1) + 1) / 2 := by omega
  simp only [Terminal.Window_DrawFramebuffer, Terminal.rowStarts, hy0, hy0', hcnt]

/-- C5 (amended): an even-start-row, height-2 dirty rectangle of width `w`
emits exactly `w` terminal cells — one per (column, row-pair), so a 2×2
rectangle emits two cells, not one — each with background = that column's
top pixel and foreground = its bottom pixel, at terminal row = pixel-row/2;
and a dirty rectangle with an odd start row is rendered identically to the
rectangle extended upward to the even boundary (rounded down). -/
theorem halfblock_encode_shape (bmp : Nat → Nat → Nat) (x y w hh : Nat) :
    (y % 2 = 0 →
      Terminal.Window_DrawFramebuffer { x := x, y := y, width := w, height := 2 } bmp
        = (List.range w).map (fun i =>
            { bg := bmp (x + i) y, fg := bmp (x + i) (y + 1),
              row := y / 2, col := x + i }))
    ∧ (y % 2 = 1 →
        Terminal.Window_DrawFramebuffer { x := x, y := y, width := w, height := hh } bmp
          = Terminal.Window_DrawFramebuffer
              { x := x, y := y - 1, width := w, height := hh + 1 } bmp) := by
  constructor
  · intro h
    have hy0 : y - y % 2 = y := by omega
    have hcnt : (y + 2 - (y - y % 2) + 1) / 2 = 1 := by omega
    have hr1 : List.range 1 = [0] := rfl
    simp [Terminal.Window_DrawFramebuffer, Terminal.rowStarts, hy0, hcnt, hr1]
  · exact DrawFramebuffer_odd_row_rounds_down bmp x y w hh

/-- Witness for C5 (amended): a 2×2 rectangle at even row 0 emits its two
cells, and a rectangle at odd row 3 renders as if started at row 2. -/
theorem halfblock_encode_shape_witness :
    ((0 : Nat) % 2 = 0
      ∧ Terminal.Window_DrawFramebuffer { x := 0, y := 0, width := 2, height := 2 }
          (fun x y => 10 * x + y)
        = (List.range 2).map (fun i =>
            { bg := (fun x y => 10 * x + y) (0 + i) 0,
              fg := (fun x y => 10 * x + y) (0 + i) (0 + 1),
              row := 0 / 2, col := 0 + i }))
    ∧ ((3 : Nat) % 2 = 1
      ∧ Terminal.Window_DrawFramebuffer { x := 5, y := 3, width := 1, height := 1 }
          (fun x y => 100 * x + y)
        = Terminal.Window_DrawFramebuffer { x := 5, y := 2, width := 1, height := 2 }
            (fun x y => 100 * x + y)) :=
  ⟨⟨rfl, (halfblock_encode_shape (fun x y => 10 * x + y) 0 0 2 0).1 rfl⟩,
   ⟨rfl, (halfblock_encode_shape (fun x y => 100 * x + y) 5 3 1 1).2 rfl⟩⟩

/-! ### Claim theorems: plain printable key handling -/

/-- C6 counterexample: the printable digit byte `'1'` (0x31) produces no
event at all — `ProcessKey` falls through both branches, so it is not
"emitted as a key press". -/
theorem printable_key_press_counterexample :
    Terminal.ProcessKey 49 = []
    ∧ Terminal.Window_ProcessEvents ['1'] = [] := by
  constructor
  · decide
  · decide

/-- C6 (amended): for a plain printable byte (0x20–0x7E) outside an escape
sequence, a lowercase letter is upcased and emitted as a key press, an
uppercase letter is emitted as a key press, space produces an immediate
press-then-release pair, and every other printable byte (digits,
punctuation) produces no event; a single printable byte read is routed to
`ProcessKey`. -/
theorem printable_key_handling (key : Nat) (h : 32 ≤ key ∧ key < 127) :
    (∀ c : Char, c.toNat = key →
      Terminal.Window_ProcessEvents [c] = Terminal.ProcessKey key)
    ∧ (97 ≤ key ∧ key ≤ 122 →
        Terminal.ProcessKey key = [Terminal.TermCall.inputSetPressed (key - 32)])
    ∧ (65 ≤ key ∧ key ≤ 90 →
        Terminal.ProcessKey key = [Terminal.TermCall.inputSetPressed key])
    ∧ (key = 32 →
        Terminal.ProcessKey key
          = [Terminal.TermCall.inputSetPressed Terminal.CCKEY_SPACE,
             Terminal.TermCall.inputSetReleased Terminal.CCKEY_SPACE])
    ∧ (¬(97 ≤ key ∧ key ≤ 122) → ¬(65 ≤ key ∧ key ≤ 90) → key ≠ 32 →
        Terminal.ProcessKey key = []) := by
  refine ⟨?_, ?_, ?_, ?_, ?_⟩
  · intro c hc
    have h4 : ¬(([c] : List Char).length ≥ 4 ∧ ([c].getD 0 ' ' = '\x1b')
        ∧ ([c].getD 1 ' ' = '[') ∧ ([c].getD 2 ' ' = '<')) := by
      intro hcontra
      simp at hcontra
    unfold Terminal.Window_ProcessEvents
    rw [if_neg h4, if_pos]
    · simp [hc]
    · simp [hc]
      omega
  · intro h1
    have h2 : 65 ≤ key - 32 ∧ key - 32 ≤ 90 := by omega
    simp [Terminal.ProcessKey, h1, h2]
  · intro h1
    have hno : ¬(97 ≤ key ∧ key ≤ 122) := by omega
    simp [Terminal.ProcessKey, hno, h1]
  · intro h1
    subst h1
    decide
  · intro h1 h2 h3
    simp [Terminal.ProcessKey, h1, h2, h3]

/-- Witness for C6 (amended) at the lowercase byte `'a'`, plus the space
press/release pair. -/
theorem printable_key_handling_witness :
    (32 ≤ 97 ∧ 97 < 127)
    ∧ Terminal.Window_ProcessEvents ['a'] = Terminal.ProcessKey 97
    ∧ Terminal.ProcessKey 97 = [Terminal.TermCall.inputSetPressed 65]
    ∧ Terminal.ProcessKey 32
        = [Terminal.TermCall.inputSetPressed Terminal.CCKEY_SPACE,
           Terminal.TermCall.inputSetReleased Terminal.CCKEY_SPACE] := by
  refine ⟨by decide, ?_, ?_, ?_⟩
  · exact (printable_key_handling 97 (by decide)).1 'a' (by decide)
  · exact (printable_key_handling 97 (by decide)).2.1 (by decide)
  · exact (printable_key_handling 32 (by decide)).2.2.2.1 rfl

/-! ### strtok / atoi lemmas for the SGR mouse report -/

theorem strtokTokens_cons_ne (d c : Char) (rest cur : List Char) (h : c ≠ d) :
    Terminal.strtokTokens d (c :: rest) cur
      = Terminal.strtokTokens d rest (c :: cur) := by
  simp [Terminal.strtokTokens, h]

theorem strtokTokens_cons_delim (d : Char) (rest cur : List Char)
    (h : cur ≠ []) :
    Terminal.strtokTokens d (d :: rest) cur
      = cur.reverse :: Terminal.strtokTokens d rest [] := by
  simp [Terminal.strtokTokens, h]

theorem strtokTokens_nil_ne (d : Char) (cur : List Char) (h : cur ≠ []) :
    Terminal.strtokTokens d [] cur = [cur.reverse] := by
  simp [Terminal.strtokTokens, h]

theorem strtokTokens_nondelim (d : Char) (l : List Char) (r cur : List Char)
    (h : ∀ c ∈ l, c ≠ d) :
    Terminal.strtokTokens d (l ++ r) cur
      = Terminal.strtokTokens d r (l.reverse ++ cur) := by
  induction l generalizing cur with
  | nil => simp
  | cons c l' ih =>
    have hc : c ≠ d := h c (List.mem_cons_self c l')
    rw [List.cons_append, strtokTokens_cons_ne d c _ _ hc]
    rw [ih (c :: cur) (fun x hx => h x (List.mem_cons_of_mem c hx))]
    simp

theorem atoiDigits_append_stop (l : List Char) (c : Char) (r : List Char)
    (acc : Nat) (hc : ¬(48 ≤ c.toNat ∧ c.toNat ≤ 57)) :
    Terminal.atoiDigits (l ++ c :: r) acc = Terminal.atoiDigits l acc := by
  induction l generalizing acc with
  | nil => simp [Terminal.atoiDigits, hc]
  | cons c0 l' ih =>
    by_cases h0 : 48 ≤ c0.toNat ∧ c0.toNat ≤ 57 <;>
      simp [Terminal.atoiDigits, h0, ih]

theorem atoi_head_digit (c0 : Char) (rest : List Char)
    (h0 : 48 ≤ c0.toNat ∧ c0.toNat ≤ 57) :
    Terminal.atoi (c0 :: rest) = (Terminal.atoiDigits (c0 :: rest) 0 : Int) := by
  have hws : Terminal.c_isspace c0 = false := by
    simp [Terminal.c_isspace]
    omega
  have hdw : (c0 :: rest).dropWhile Terminal.c_isspace = c0 :: rest := by
    rw [List.dropWhile_cons, hws]
    simp
  simp only [Terminal.atoi, hdw, List.headD_cons]
  rw [if_neg (by omega), if_neg (by omega)]

/-! ### Claim theorem: SGR mouse report decoding -/

/-- C4: an SGR mouse report `ESC [ < 0 ; <x-digits> ; <y-digits> (M|m)` is
routed to `ProcessMouse` and decodes to a pointer move to (x, 2*y) — the X
coordinate passed through, the Y coordinate doubled — followed by setting
the left mouse button pressed exactly when no `m` occurs in the buffer
(terminator `M`) and released when the terminator is `m`. -/
theorem sgr_mouse_report_decoding (bx byl : List Char) (term : Char)
    (hbxne : bx ≠ []) (hbxd : ∀ c ∈ bx, 48 ≤ c.toNat ∧ c.toNat ≤ 57)
    (hbyne : byl ≠ []) (hbyd : ∀ c ∈ byl, 48 ≤ c.toNat ∧ c.toNat ≤ 57)
    (hterm : term = 'M' ∨ term = 'm') :
    Terminal.Window_ProcessEvents
        (['\x1b', '[', '<', '0', ';'] ++ bx ++ [';'] ++ byl ++ [term])
      = Terminal.ProcessMouse
          (['\x1b', '[', '<', '0', ';'] ++ bx ++ [';'] ++ byl ++ [term])
    ∧ Terminal.ProcessMouse
        (['\x1b', '[', '<', '0', ';'] ++ bx ++ [';'] ++ byl ++ [term])
      = [Terminal.TermCall.pointerSetPosition 0 (Terminal.atoi bx)
           (Terminal.atoi byl * 2),
         Terminal.TermCall.inputSetNonRepeatable Terminal.CCMOUSE_L
           (!decide (term = 'm'))] := by
  have hbxsemi : ∀ c ∈ bx, c ≠ (';' : Char) := by
    intro c hc he
    subst he
    exact absurd (hbxd _ hc) (by decide)
  have hbyterm : ∀ c ∈ byl ++ [term], c ≠ (';' : Char) := by
    intro c hc he
    subst he
    rcases List.mem_append.mp hc with hc | hc
    · exact absurd (hbyd _ hc) (by decide)
    · rcases List.mem_singleton.mp hc with h
      rcases hterm with ht | ht <;> rw [ht] at h <;> exact absurd h (by decide)
  have htermnd : ¬(48 ≤ term.toNat ∧ term.toNat ≤ 57) := by
    rcases hterm with h | h <;> subst h <;> decide
  have htok : Terminal.strtokTokens ';'
        ((['\x1b', '[', '<', '0', ';'] ++ bx ++ [';'] ++ byl ++ [term]).drop 3) []
      = ['0'] :: bx :: [byl ++ [term]] := by
    rw [show (['\x1b', '[', '<', '0', ';'] ++ bx ++ [';'] ++ byl ++ [term]).drop 3
        = '0' :: ';' :: (bx ++ [';'] ++ byl ++ [term]) from rfl]
    rw [strtokTokens_cons_ne ';' '0' _ _ (by decide)]
    rw [strtokTokens_cons_delim ';' _ _ (by simp)]
    rw [show bx ++ [';'] ++ byl ++ [term] = bx ++ (';' :: (byl ++ [term])) from by
      simp]
    rw [strtokTokens_nondelim ';' bx _ _ hbxsemi]
    rw [List.append_nil]
    rw [strtokTokens_cons_delim ';' _ _ (by simpa using hbxne)]
    rw [show byl ++ [term] = (byl ++ [term]) ++ [] from by simp]
    rw [strtokTokens_nondelim ';' (byl ++ [term]) [] [] hbyterm]
    rw [List.append_nil]
    rw [strtokTokens_nil_ne ';' _ (by simp)]
    simp
  have hatoi2 : Terminal.atoi (byl ++ [term]) = Terminal.atoi byl := by
    obtain ⟨yc, yrest, rfl⟩ := List.exists_cons_of_ne_nil hbyne
    have h0 := hbyd yc (List.mem_cons_self _ _)
    rw [List.cons_append, atoi_head_digit yc (yrest ++ [term]) h0]
    rw [show yc :: (yrest ++ [term]) = (yc :: yrest) ++ term :: [] from by simp]
    rw [atoiDigits_append_stop _ _ _ _ htermnd]
    rw [atoi_head_digit yc yrest h0]
  have hmem : ('m' ∈ (['\x1b', '[', '<', '0', ';'] ++ bx ++ [';'] ++ byl ++ [term]))
      ↔ term = 'm' := by
    constructor
    · intro hm
      rcases List.mem_append.mp hm with hm | hm
      · rcases List.mem_append.mp hm with hm | hm
        · rcases List.mem_append.mp hm with hm | hm
          · rcases List.mem_append.mp hm with hm | hm
            · exact absurd hm (by decide)
            · exact absurd (hbxd _ hm) (by decide)
          · exact absurd hm (by decide)
        · exact absurd (hbyd _ hm) (by decide)
      · exact (List.mem_singleton.mp hm).symm
    · intro h
      subst h
      simp
  have hdec : decide ('m' ∈ (['\x1b', '[', '<', '0', ';'] ++ bx ++ [';'] ++ byl
      ++ [term])) = decide (term = 'm') := decide_eq_decide.mpr hmem
  constructor
  · unfold Terminal.Window_ProcessEvents
    rw [if_pos]
    refine ⟨?_, rfl, rfl, rfl⟩
    simp [List.length_append]
  · simp only [Terminal.ProcessMouse, htok, List.headD_cons, List.getD_cons_zero,
      List.getD_cons_succ, List.contains, List.elem_eq_mem, hatoi2, hdec, if_true]

/-- Witness for C4 at the claim's concrete report `ESC [ < 0 ; 10 ; 5 M`:
a left-button press with the pointer at pixel (10, 10). -/
theorem sgr_mouse_report_decoding_witness :
    (['1', '0'] ≠ ([] : List Char))
    ∧ (∀ c ∈ (['1', '0'] : List Char), 48 ≤ c.toNat ∧ c.toNat ≤ 57)
    ∧ (['5'] ≠ ([] : List Char))
    ∧ (∀ c ∈ (['5'] : List Char), 48 ≤ c.toNat ∧ c.toNat ≤ 57)
    ∧ (('M' : Char) = 'M' ∨ ('M' : Char) = 'm')
    ∧ Terminal.Window_ProcessEvents
        ['\x1b', '[', '<', '0', ';', '1', '0', ';', '5', 'M']
      = [Terminal.TermCall.pointerSetPosition 0 10 10,
         Terminal.TermCall.inputSetNonRepeatable Terminal.CCMOUSE_L true] := by
  refine ⟨by decide, by decide, by decide, by decide, Or.inl rfl, ?_⟩
  have h := sgr_mouse_report_decoding ['1', '0'] ['5'] 'M'
    (by decide) (by decide) (by decide) (by decide) (Or.inl rfl)
  have hbuf : (['\x1b', '[', '<', '0', ';'] ++ ['1', '0'] ++ [';'] ++ ['5'] ++ ['M'])
      = ['\x1b', '[', '<', '0', ';', '1', '0', ';', '5', 'M'] := rfl
  rw [hbuf] at h
  rw [h.1, h.2]
  decide
